import Mathlib

/-!
Shallow embedding of `RuntimeTargetConsole.cpp` (react-native,
`jsinspector-modern`): the `console` interception layer installed by
`RuntimeTarget::installConsoleHandler`.

The embedding models:
* JSI values as far as the console logic inspects them (`JSValue`);
* the boolean coercion `toBoolean` (source lines 70-91);
* per-method console bodies (`count`, `countReset`, `time`, `timeEnd`,
  `timeLog`, `assert`, and the thirteen forwarding methods), each a pure
  function from arguments, `ConsoleState` and the call timestamp to the
  next state plus the list of emitted `ConsoleMessage`s;
* the per-call pipeline built by `installConsoleMethod`:
  `delegateExecutorSync` (weak-upgrade guard plus owner-thread handoff of
  the strong reference) and `forwardToOriginalConsole` (chaining to the
  pre-existing console object), as `consoleInnerFn` and
  `interceptedConsoleCall`.

String coercion of a JSI value (`Value::toString`) and the decimal
rendering of a C++ `double` (`std::to_string`) are capabilities of the
runtime / standard library, so they are taken as parameters (`toStr`,
`fmt`) rather than reimplemented; timestamps are modelled as rationals.
-/

namespace RuntimeTargetConsole

/-- A JSI value, as far as the console interception logic inspects it.
Numbers carry their rational value, with NaN as a separate constructor;
symbols and objects are opaque, identified by an id. -/
inductive JSValue where
  | undefined
  | null
  | bool (b : Bool)
  | num (value : ℚ)
  | nan
  | str (s : String)
  | sym (id : ℕ)
  | obj (id : ℕ)
deriving DecidableEq, Repr

/-- Whether a value is a JS string (`jsi::Value::isString`). -/
def JSValue.isString : JSValue → Bool
  | JSValue.str _ => true
  | _ => false

/-- Source `toBoolean` (RuntimeTargetConsole.cpp:70-91), based on the
Hermes VM coercion: undefined/null are false, booleans are themselves, a
number is true iff nonzero and not NaN, symbols and objects are true, a
string is true iff nonempty. -/
def toBoolean : JSValue → Bool
  | JSValue.undefined => false
  | JSValue.null => false
  | JSValue.bool b => b
  | JSValue.num value => decide (value ≠ 0)
  | JSValue.nan => false
  | JSValue.sym _ => true
  | JSValue.obj _ => true
  | JSValue.str s => !s.isEmpty

/-- Source `ConsoleAPIType` as used by RuntimeTargetConsole.cpp. -/
inductive ConsoleAPIType where
  | kClear
  | kDebug
  | kDir
  | kDirXML
  | kError
  | kStartGroup
  | kStartGroupCollapsed
  | kEndGroup
  | kInfo
  | kLog
  | kTable
  | kTrace
  | kWarning
  | kCount
  | kTimeEnd
  | kAssert
deriving DecidableEq, Repr

/-- A console message handed to `RuntimeTargetDelegate::addConsoleMessage`:
timestamp, type, and the argument list. -/
structure ConsoleMessage where
  timestampMs : ℚ
  type : ConsoleAPIType
  args : List JSValue
deriving DecidableEq, Repr

/-- Source `ConsoleState` (RuntimeTargetConsole.cpp:20-37): the per-install
count map and timer table. The C++ `unordered_map`s are modelled as
association lists; all observations go through `lookupAssoc`. -/
structure ConsoleState where
  countMap : List (String × Int)
  timerTable : List (String × ℚ)
deriving DecidableEq, Repr

/-- Lookup in an association list (`unordered_map::find`). -/
def lookupAssoc {α : Type} : List (String × α) → String → Option α
  | [], _ => none
  | (k, v) :: rest, key => if k = key then some v else lookupAssoc rest key

/-- Overwrite the value stored at an existing key (`it->second = v`). -/
def setAssoc {α : Type} : List (String × α) → String → α → List (String × α)
  | [], _, _ => []
  | (k, v) :: rest, key, newVal =>
      if k = key then (k, newVal) :: rest else (k, v) :: setAssoc rest key newVal

/-- Remove the entry at a key (`unordered_map::erase(it)`). -/
def eraseAssoc {α : Type} : List (String × α) → String → List (String × α)
  | [], _ => []
  | (k, v) :: rest, key =>
      if k = key then rest else (k, v) :: eraseAssoc rest key

/-- Label resolution shared by count/countReset/time/timeEnd/timeLog
(source pattern `count > 0 && !args[0].isUndefined() ?
args[0].toString(runtime).utf8(runtime) : "default"`). `toStr` is the
runtime's ToString coercion, a consumed capability. -/
def resolveLabel (toStr : JSValue → String) : List JSValue → String
  | [] => "default"
  | a :: _ => if a = JSValue.undefined then "default" else toStr a

/-- The shape of every installed method body: JSI call arguments, shared
`ConsoleState`, and the timestamp captured at call entry, producing the
updated state and the messages sunk to the delegate (zero or one). -/
abbrev ConsoleBody := List JSValue → ConsoleState → ℚ → ConsoleState × List ConsoleMessage

/-- Source `console.count` body (RuntimeTargetConsole.cpp:226-249):
initialize the label's count to 1 or increment it, then emit one
`kCount` message `"<label>: <count>"`. -/
def countBody (toStr : JSValue → String) : ConsoleBody := fun args st ts =>
  let label := resolveLabel toStr args
  match lookupAssoc st.countMap label with
  | none =>
      ({ st with countMap := st.countMap ++ [(label, 1)] },
       [⟨ts, ConsoleAPIType.kCount,
         [JSValue.str (label ++ ": " ++ toString (1 : Int))]⟩])
  | some n =>
      ({ st with countMap := setAssoc st.countMap label (n + 1) },
       [⟨ts, ConsoleAPIType.kCount,
         [JSValue.str (label ++ ": " ++ toString (n + 1))]⟩])

/-- Source `console.countReset` body (RuntimeTargetConsole.cpp:254-277):
warn if the label has no count, otherwise zero it (no message). -/
def countResetBody (toStr : JSValue → String) : ConsoleBody := fun args st ts =>
  let label := resolveLabel toStr args
  match lookupAssoc st.countMap label with
  | none =>
      (st,
       [⟨ts, ConsoleAPIType.kWarning,
         [JSValue.str ("Count for '" ++ label ++ "' does not exist")]⟩])
  | some _ =>
      ({ st with countMap := setAssoc st.countMap label 0 }, [])

/-- Source `console.time` body (RuntimeTargetConsole.cpp:282-305): start a
timer at the call timestamp if none exists, otherwise warn and leave the
table untouched. -/
def timeBody (toStr : JSValue → String) : ConsoleBody := fun args st ts =>
  let label := resolveLabel toStr args
  match lookupAssoc st.timerTable label with
  | none =>
      ({ st with timerTable := st.timerTable ++ [(label, ts)] }, [])
  | some _ =>
      (st,
       [⟨ts, ConsoleAPIType.kWarning,
         [JSValue.str ("Timer '" ++ label ++ "' already exists")]⟩])

/-- Source `console.timeEnd` body (RuntimeTargetConsole.cpp:310-341): warn
if the timer is absent; otherwise emit `"<label>: <elapsed> ms"` of kind
`kTimeEnd` and erase the entry. `fmt` is the C++ `std::to_string(double)`
decimal rendering, a standard-library capability. -/
def timeEndBody (toStr : JSValue → String) (fmt : ℚ → String) : ConsoleBody :=
  fun args st ts =>
  let label := resolveLabel toStr args
  match lookupAssoc st.timerTable label with
  | none =>
      (st,
       [⟨ts, ConsoleAPIType.kWarning,
         [JSValue.str ("Timer '" ++ label ++ "' does not exist")]⟩])
  | some start =>
      ({ st with timerTable := eraseAssoc st.timerTable label },
       [⟨ts, ConsoleAPIType.kTimeEnd,
         [JSValue.str (label ++ ": " ++ fmt (ts - start) ++ " ms")]⟩])

/-- Source `console.timeLog` body (RuntimeTargetConsole.cpp:346-380): like
`timeEnd` but keeps the entry, emits kind `kLog`, and appends the extra
call arguments (index 1 onward) after the elapsed-time string. -/
def timeLogBody (toStr : JSValue → String) (fmt : ℚ → String) : ConsoleBody :=
  fun args st ts =>
  let label := resolveLabel toStr args
  match lookupAssoc st.timerTable label with
  | none =>
      (st,
       [⟨ts, ConsoleAPIType.kWarning,
         [JSValue.str ("Timer '" ++ label ++ "' does not exist")]⟩])
  | some start =>
      (st,
       [⟨ts, ConsoleAPIType.kLog,
         JSValue.str (label ++ ": " ++ fmt (ts - start) ++ " ms") :: args.drop 1⟩])

/-- Source `console.assert` data transform (RuntimeTargetConsole.cpp:
396-414) applied to the arguments from index 1 onward: an empty list
becomes `["Assertion failed"]`; a leading string `s` becomes
`"Assertion failed: " ++ s`; otherwise `"Assertion failed"` is prepended
with the original first element retained. -/
def assertData : List JSValue → List JSValue
  | [] => [JSValue.str "Assertion failed"]
  | JSValue.str s :: rest => JSValue.str ("Assertion failed: " ++ s) :: rest
  | v :: rest => JSValue.str "Assertion failed" :: v :: rest

/-- Source `console.assert` body (RuntimeTargetConsole.cpp:385-422): a
truthy first argument produces no message; otherwise one `kAssert`
message carrying `assertData` of the remaining arguments. State is not
touched. -/
def assertBody : ConsoleBody := fun args st ts =>
  match args with
  | a :: rest =>
      if toBoolean a then (st, [])
      else (st, [⟨ts, ConsoleAPIType.kAssert, assertData rest⟩])
  | [] => (st, [⟨ts, ConsoleAPIType.kAssert, assertData []⟩])

/-- Body of each method in `kForwardingConsoleMethods`
(RuntimeTargetConsole.cpp:424-441): forward all call arguments verbatim
as one message of the method's fixed type; state untouched. -/
def passthroughBody (type : ConsoleAPIType) : ConsoleBody := fun args st ts =>
  (st, [⟨ts, type, args⟩])

/-- Source `kForwardingConsoleMethods` table (RuntimeTargetConsole.cpp:
43-58): the thirteen methods with no behaviour other than emitting a
message of a fixed type. -/
def kForwardingConsoleMethods : List (String × ConsoleAPIType) :=
  [("clear", ConsoleAPIType.kClear),
   ("debug", ConsoleAPIType.kDebug),
   ("dir", ConsoleAPIType.kDir),
   ("dirxml", ConsoleAPIType.kDirXML),
   ("error", ConsoleAPIType.kError),
   ("group", ConsoleAPIType.kStartGroup),
   ("groupCollapsed", ConsoleAPIType.kStartGroupCollapsed),
   ("groupEnd", ConsoleAPIType.kEndGroup),
   ("info", ConsoleAPIType.kInfo),
   ("log", ConsoleAPIType.kLog),
   ("table", ConsoleAPIType.kTable),
   ("trace", ConsoleAPIType.kTrace),
   ("warn", ConsoleAPIType.kWarning)]

/-- The body installed for a given method name by
`RuntimeTarget::installConsoleHandler`: the six stateful methods, then the
forwarding table; `none` for names the handler does not install. -/
def methodBody (toStr : JSValue → String) (fmt : ℚ → String)
    (name : String) : Option ConsoleBody :=
  if name = "count" then some (countBody toStr)
  else if name = "countReset" then some (countResetBody toStr)
  else if name = "time" then some (timeBody toStr)
  else if name = "timeEnd" then some (timeEndBody toStr fmt)
  else if name = "timeLog" then some (timeLogBody toStr fmt)
  else if name = "assert" then some assertBody
  else (lookupAssoc kForwardingConsoleMethods name).map passthroughBody

/-- One installed-method invocation as seen by the body layer: dispatch on
the method name and run the body (a name that was never installed leaves
state and messages untouched). -/
def stepMethod (toStr : JSValue → String) (fmt : ℚ → String) (name : String)
    (args : List JSValue) (st : ConsoleState) (ts : ℚ) :
    ConsoleState × List ConsoleMessage :=
  match methodBody toStr fmt name with
  | none => (st, [])
  | some body => body args st ts

/-- Run a sequence of installed-method invocations, collecting all emitted
messages in order. -/
def runOps (toStr : JSValue → String) (fmt : ℚ → String) :
    List (String × List JSValue × ℚ) → ConsoleState →
    ConsoleState × List ConsoleMessage
  | [], st => (st, [])
  | (name, args, ts) :: rest, st =>
      let r := stepMethod toStr fmt name args st ts
      let r2 := runOps toStr fmt rest r.1
      (r2.1, r.2 ++ r2.2)

/-- A JavaScript exception raised while calling into the runtime (a
`jsi::JSError` propagating as a C++ exception). -/
structure JSError where
  message : String
deriving DecidableEq, Repr

/-- Result of `originalConsole->getProperty(runtime, methodName)` as
classified by the forwarding wrapper (RuntimeTargetConsole.cpp:159-163):
a non-object value (including `undefined` for an absent property), an
object that is not a function, or a callable function. A callable is
modelled by its behaviour on an argument list: it returns a value or
throws. -/
inductive PropLookup where
  | value (v : JSValue)
  | plainObject
  | callable (f : List JSValue → Except JSError JSValue)

/-- Whether a property lookup produced a callable function. -/
def PropLookup.isCallable : PropLookup → Prop :=
  fun p => ∃ f, p = PropLookup.callable f

/-- Where the strong reference obtained by upgrading the weak
`RuntimeTarget` pointer is released: moved into a fire-and-forget task on
the owner executor (`selfExecutor([self = std::move(self)](auto&) {})`,
RuntimeTargetConsole.cpp:138) so its count decrements on the inspector
thread, or dropped directly on the JS thread (which the source never
does). -/
inductive RefDisposal where
  | ownerExecutorTask
  | scriptThread
deriving DecidableEq, Repr

/-- Observable events of one intercepted call, in temporal order: the
inline delegate-access window opening (the weak-to-strong upgrade
succeeded and the body is invoked with `self->delegate_`), each message
sunk via `addConsoleMessage`, the strong-reference handoff to the owner
executor, and the invocation of the original console's method (receiver
`*originalConsole`). -/
inductive BridgeEvent where
  | delegateAccess
  | message (m : ConsoleMessage)
  | ownerHandoff
  | forwardCall (args : List JSValue)
deriving DecidableEq, Repr

/-- Outcome of the inner host function built by `installConsoleMethod`
(RuntimeTargetConsole.cpp:198-220): final state, messages sunk to the
delegate, whether the delegate was accessed, how the strong reference was
disposed of (none when the upgrade failed), the event trace, and the
value returned to the caller of the inner function. -/
structure InnerOutcome where
  state : ConsoleState
  messages : List ConsoleMessage
  delegateAccessed : Bool
  strongRefDisposal : Option RefDisposal
  events : List BridgeEvent
  retVal : JSValue
deriving Repr

/-- The inner host function of `installConsoleMethod` combined with
`delegateExecutorSync` (RuntimeTargetConsole.cpp:128-140, 198-220).
`alive` is whether `selfWeak.lock()` succeeds. If it does, the body runs
inline on the JS thread against the delegate, and the strong reference is
then moved into a task submitted to the owner executor; if not, the body
is skipped entirely. Either way the inner function returns
`jsi::Value::undefined()`. -/
def consoleInnerFn (alive : Bool) (body : ConsoleBody) (args : List JSValue)
    (st : ConsoleState) (ts : ℚ) : InnerOutcome :=
  if alive then
    let r := body args st ts
    { state := r.1
      messages := r.2
      delegateAccessed := true
      strongRefDisposal := some RefDisposal.ownerExecutorTask
      events := BridgeEvent.delegateAccess ::
        (r.2.map BridgeEvent.message ++ [BridgeEvent.ownerHandoff])
      retVal := JSValue.undefined }
  else
    { state := st
      messages := []
      delegateAccessed := false
      strongRefDisposal := none
      events := []
      retVal := JSValue.undefined }

/-- Full outcome of one intercepted console call, after the
`forwardToOriginalConsole` wrapper: the inner outcome plus the forwarded
invocation of the original method (its argument list, receiver is the
original console) and the overall result returned to (or the exception
raised into) the calling script. -/
structure CallOutcome where
  state : ConsoleState
  messages : List ConsoleMessage
  delegateAccessed : Bool
  strongRefDisposal : Option RefDisposal
  events : List BridgeEvent
  forwarded : Option (List JSValue)
  result : Except JSError JSValue
deriving Repr

/-- One intercepted console call, as assembled by `installConsoleMethod`
wrapping the body in `forwardToOriginalConsole`
(RuntimeTargetConsole.cpp:146-221): run the inner function first; then,
if an original console was captured at installation, look up the
same-named property on it; if it is a callable object, call it with the
original unmodified argument list (receiver `*originalConsole`),
discarding its return value but letting any exception it throws
propagate; otherwise skip forwarding. On normal completion the call
returns the inner function's `undefined`. -/
def interceptedConsoleCall (alive : Bool)
    (orig : Option (String → PropLookup)) (name : String)
    (body : ConsoleBody) (args : List JSValue) (st : ConsoleState) (ts : ℚ) :
    CallOutcome :=
  let inner := consoleInnerFn alive body args st ts
  match orig with
  | none =>
      { state := inner.state
        messages := inner.messages
        delegateAccessed := inner.delegateAccessed
        strongRefDisposal := inner.strongRefDisposal
        events := inner.events
        forwarded := none
        result := Except.ok inner.retVal }
  | some props =>
      match props name with
      | PropLookup.callable f =>
          { state := inner.state
            messages := inner.messages
            delegateAccessed := inner.delegateAccessed
            strongRefDisposal := inner.strongRefDisposal
            events := inner.events ++ [BridgeEvent.forwardCall args]
            forwarded := some args
            result :=
              match f args with
              | Except.ok _ => Except.ok inner.retVal
              | Except.error e => Except.error e }
      | PropLookup.value _ =>
          { state := inner.state
            messages := inner.messages
            delegateAccessed := inner.delegateAccessed
            strongRefDisposal := inner.strongRefDisposal
            events := inner.events
            forwarded := none
            result := Except.ok inner.retVal }
      | PropLookup.plainObject =>
          { state := inner.state
            messages := inner.messages
            delegateAccessed := inner.delegateAccessed
            strongRefDisposal := inner.strongRefDisposal
            events := inner.events
            forwarded := none
            result := Except.ok inner.retVal }

/-- The forwarding suffix of a call's event trace: the invocation of the
original console's method, present exactly when an original console was
captured and its same-named property is callable. -/
def forwardTrace (orig : Option (String → PropLookup)) (name : String)
    (args : List JSValue) : List BridgeEvent :=
  match orig with
  | none => []
  | some props =>
      match props name with
      | PropLookup.callable _ => [BridgeEvent.forwardCall args]
      | _ => []

theorem lookupAssoc_append_of_none {α : Type} {m : List (String × α)}
    {key : String} (m2 : List (String × α)) (h : lookupAssoc m key = none) :
    lookupAssoc (m ++ m2) key = lookupAssoc m2 key := by
  induction m with
  | nil => simp [lookupAssoc]
  | cons p rest ih =>
    obtain ⟨k, v⟩ := p
    by_cases hk : k = key
    · simp [lookupAssoc, hk] at h
    · simp only [lookupAssoc, if_neg hk] at h
      simp only [List.cons_append, lookupAssoc, if_neg hk]
      exact ih h

theorem lookupAssoc_append_of_some {α : Type} {m : List (String × α)}
    {key : String} {v : α} (m2 : List (String × α))
    (h : lookupAssoc m key = some v) :
    lookupAssoc (m ++ m2) key = some v := by
  induction m with
  | nil => simp [lookupAssoc] at h
  | cons p rest ih =>
    obtain ⟨k, w⟩ := p
    by_cases hk : k = key
    · simp only [lookupAssoc, if_pos hk] at h
      simp only [List.cons_append, lookupAssoc, if_pos hk]
      exact h
    · simp only [lookupAssoc, if_neg hk] at h
      simp only [List.cons_append, lookupAssoc, if_neg hk]
      exact ih h

theorem lookupAssoc_setAssoc_self {α : Type} {m : List (String × α)}
    {key : String} {w : α} (v : α) (h : lookupAssoc m key = some w) :
    lookupAssoc (setAssoc m key v) key = some v := by
  induction m with
  | nil => simp [lookupAssoc] at h
  | cons p rest ih =>
    obtain ⟨k, u⟩ := p
    by_cases hk : k = key
    · simp [setAssoc, lookupAssoc, hk]
    · simp only [lookupAssoc, if_neg hk] at h
      simp only [setAssoc, if_neg hk, lookupAssoc]
      exact ih h

theorem eraseAssoc_append_of_none {α : Type} {m : List (String × α)}
    {key : String} (v : α) (h : lookupAssoc m key = none) :
    eraseAssoc (m ++ [(key, v)]) key = m := by
  induction m with
  | nil => simp [eraseAssoc]
  | cons p rest ih =>
    obtain ⟨k, u⟩ := p
    by_cases hk : k = key
    · simp [lookupAssoc, hk] at h
    · simp only [lookupAssoc, if_neg hk] at h
      simp only [List.cons_append, eraseAssoc, if_neg hk]
      exact congrArg (fun l => (k, u) :: l) (ih h)

theorem methodBody_count (toStr : JSValue → String) (fmt : ℚ → String) :
    methodBody toStr fmt "count" = some (countBody toStr) := rfl

theorem countBody_lookup_none {toStr : JSValue → String} {L : String}
    (hstr : toStr (JSValue.str L) = L) {st : ConsoleState}
    (h : lookupAssoc st.countMap L = none) (ts : ℚ) (rest : List JSValue) :
    countBody toStr (JSValue.str L :: rest) st ts
      = ({ st with countMap := st.countMap ++ [(L, 1)] },
         [⟨ts, ConsoleAPIType.kCount,
           [JSValue.str (L ++ ": " ++ toString (1 : Int))]⟩]) := by
  simp [countBody, resolveLabel, hstr, h]

theorem countBody_lookup_some {toStr : JSValue → String} {L : String}
    (hstr : toStr (JSValue.str L) = L) {st : ConsoleState} {n : Int}
    (h : lookupAssoc st.countMap L = some n) (ts : ℚ) (rest : List JSValue) :
    countBody toStr (JSValue.str L :: rest) st ts
      = ({ st with countMap := setAssoc st.countMap L (n + 1) },
         [⟨ts, ConsoleAPIType.kCount,
           [JSValue.str (L ++ ": " ++ toString (n + 1))]⟩]) := by
  simp [countBody, resolveLabel, hstr, h]

theorem runOps_count_replicate {toStr : JSValue → String} (fmt : ℚ → String)
    {L : String} (hstr : toStr (JSValue.str L) = L) (ts : ℚ) :
    ∀ (k : ℕ) (st : ConsoleState) (n : ℤ),
      lookupAssoc st.countMap L = some n →
      (runOps toStr fmt (List.replicate k ("count", [JSValue.str L], ts)) st).2
        = (List.range k).map (fun i =>
            ⟨ts, ConsoleAPIType.kCount,
             [JSValue.str (L ++ ": " ++ toString (n + (i : ℤ) + 1))]⟩) := by
  intro k
  induction k with
  | zero => intro st n h; simp [runOps]
  | succ k ih =>
    intro st n h
    rw [List.replicate_succ]
    simp only [runOps, stepMethod, methodBody_count]
    rw [countBody_lookup_some hstr h]
    rw [ih _ (n + 1) (lookupAssoc_setAssoc_self _ h)]
    rw [List.range_succ_eq_map]
    simp only [List.map_cons, List.map_map, List.singleton_append]
    congr 1
    · have h0 : n + ((0 : ℕ) : ℤ) + 1 = n + 1 := by push_cast; ring
      rw [h0]
    · refine List.map_congr_left ?_
      intro i _
      simp only [Function.comp_apply]
      have harith : n + 1 + (i : ℤ) + 1 = n + ((i + 1 : ℕ) : ℤ) + 1 := by
        push_cast
        ring
      rw [harith]

/-- C1: for every label L, the k-th call to the installed count method
with label L (counting from 1, from a state with no count for L, as after
a fresh installation) emits exactly one kCount message whose body is the
single string `L ++ ": " ++ k`; and calling count with no arguments, or
with an undefined first argument, behaves identically to calling
count with the string "default". `toStr` is the runtime ToString
capability, which is the identity on strings. -/
theorem C1_count_kth_call (toStr : JSValue → String) (fmt : ℚ → String)
    (L : String) (k : ℕ) (st : ConsoleState) (ts : ℚ)
    (hstr : ∀ s, toStr (JSValue.str s) = s)
    (hk : 1 ≤ k)
    (h0 : lookupAssoc st.countMap L = none) :
    (runOps toStr fmt (List.replicate k ("count", [JSValue.str L], ts)) st).2
      = (List.range k).map (fun i =>
          ⟨ts, ConsoleAPIType.kCount,
           [JSValue.str (L ++ ": " ++ toString ((i : ℤ) + 1))]⟩) ∧
    ((runOps toStr fmt (List.replicate k ("count", [JSValue.str L], ts)) st).2)[k - 1]?
      = some ⟨ts, ConsoleAPIType.kCount,
          [JSValue.str (L ++ ": " ++ toString (k : ℤ))]⟩ ∧
    (∀ st2 t, countBody toStr [] st2 t
        = countBody toStr [JSValue.str "default"] st2 t) ∧
    (∀ st2 t rest, countBody toStr (JSValue.undefined :: rest) st2 t
        = countBody toStr [JSValue.str "default"] st2 t) := by
  have hmain :
      (runOps toStr fmt (List.replicate k ("count", [JSValue.str L], ts)) st).2
        = (List.range k).map (fun i =>
            ⟨ts, ConsoleAPIType.kCount,
             [JSValue.str (L ++ ": " ++ toString ((i : ℤ) + 1))]⟩) := by
    obtain ⟨k0, rfl⟩ : ∃ k0, k = k0 + 1 :=
      ⟨k - 1, (Nat.succ_pred_eq_of_pos hk).symm⟩
    rw [List.replicate_succ]
    simp only [runOps, stepMethod, methodBody_count]
    rw [countBody_lookup_none (hstr L) h0]
    have h1 : lookupAssoc (st.countMap ++ [(L, 1)]) L = some 1 := by
      rw [lookupAssoc_append_of_none _ h0]
      simp [lookupAssoc]
    rw [runOps_count_replicate fmt (hstr L) ts k0 _ 1 h1]
    rw [List.range_succ_eq_map]
    simp only [List.map_cons, List.map_map, List.singleton_append]
    congr 1
    · refine List.map_congr_left ?_
      intro i _
      simp only [Function.comp_apply]
      have harith : (1 : ℤ) + (i : ℤ) + 1 = ((i + 1 : ℕ) : ℤ) + 1 := by
        push_cast
        ring
      rw [harith]
  refine ⟨hmain, ?_, ?_, ?_⟩
  · rw [hmain]
    have hlt : k - 1 < k := by omega
    have hcast : ((k - 1 : ℕ) : ℤ) + 1 = (k : ℤ) := by omega
    simp only [List.getElem?_map, List.getElem?_range, hlt, if_pos,
      Option.map_some']
    rw [hcast]
  · intro st2 t
    simp [countBody, resolveLabel, hstr]
  · intro st2 t rest
    simp [countBody, resolveLabel, hstr]

/-- C1 witness: three count calls with label "a" from the fresh state emit
"a: 1", "a: 2", "a: 3". -/
theorem C1_count_kth_call_witness :
    (runOps (fun v => match v with | JSValue.str s => s | _ => "")
        (fun _ => "")
        (List.replicate 3 ("count", [JSValue.str "a"], (0 : ℚ))) ⟨[], []⟩).2
      = [⟨0, ConsoleAPIType.kCount, [JSValue.str "a: 1"]⟩,
         ⟨0, ConsoleAPIType.kCount, [JSValue.str "a: 2"]⟩,
         ⟨0, ConsoleAPIType.kCount, [JSValue.str "a: 3"]⟩] := by
  have h := (C1_count_kth_call
      (fun v => match v with | JSValue.str s => s | _ => "")
      (fun _ => "") "a" 3 ⟨[], []⟩ 0 (fun s => rfl) (by decide) rfl).1
  rw [h]
  rfl

/-- C2: the installed assert method emits nothing when argument 0 exists
and is truthy under the source coercion rules (undefined/null false,
boolean itself, number false iff zero or NaN, symbol/object true, string
false iff empty); otherwise it emits exactly one kAssert message whose
body is the arguments from index 1 onward transformed by `assertData`
(empty becomes ["Assertion failed"]; a leading string s becomes
"Assertion failed: " ++ s; any other nonempty list gets "Assertion
failed" prepended with the original first element retained). -/
theorem C2_assert_method (st : ConsoleState) (ts : ℚ) :
    (∀ a rest, toBoolean a = true → assertBody (a :: rest) st ts = (st, [])) ∧
    (∀ a rest, toBoolean a = false →
       assertBody (a :: rest) st ts
         = (st, [⟨ts, ConsoleAPIType.kAssert, assertData rest⟩])) ∧
    assertBody [] st ts
      = (st, [⟨ts, ConsoleAPIType.kAssert, [JSValue.str "Assertion failed"]⟩]) ∧
    assertData [] = [JSValue.str "Assertion failed"] ∧
    (∀ s rest, assertData (JSValue.str s :: rest)
       = JSValue.str ("Assertion failed: " ++ s) :: rest) ∧
    (∀ v rest, v.isString = false →
       assertData (v :: rest) = JSValue.str "Assertion failed" :: v :: rest) ∧
    toBoolean JSValue.undefined = false ∧
    toBoolean JSValue.null = false ∧
    (∀ b, toBoolean (JSValue.bool b) = b) ∧
    (∀ q, toBoolean (JSValue.num q) = decide (q ≠ 0)) ∧
    toBoolean JSValue.nan = false ∧
    (∀ i, toBoolean (JSValue.sym i) = true) ∧
    (∀ i, toBoolean (JSValue.obj i) = true) ∧
    (∀ s, toBoolean (JSValue.str s) = !s.isEmpty) := by
  refine ⟨?_, ?_, rfl, rfl, fun s rest => rfl, ?_, rfl, rfl, fun b => rfl,
    fun q => rfl, rfl, fun i => rfl, fun i => rfl, fun s => rfl⟩
  · intro a rest h
    simp [assertBody, h]
  · intro a rest h
    simp [assertBody, h]
  · intro v rest h
    cases v with
    | str s => simp [JSValue.isString] at h
    | undefined => rfl
    | null => rfl
    | bool b => rfl
    | num q => rfl
    | nan => rfl
    | sym i => rfl
    | obj i => rfl

/-- C2 witness: assert(false, "oops") emits exactly one kAssert message
["Assertion failed: oops"]. -/
theorem C2_assert_method_witness :
    assertBody [JSValue.bool false, JSValue.str "oops"] ⟨[], []⟩ 0
      = (⟨[], []⟩,
         [⟨0, ConsoleAPIType.kAssert,
           [JSValue.str "Assertion failed: oops"]⟩]) := by
  have h := (C2_assert_method ⟨[], []⟩ 0).2.1
    (JSValue.bool false) [JSValue.str "oops"] rfl
  rw [h]
  rfl

/-- C3: starting a timer for a fresh label L at t0 emits nothing, and
ending it at t1 emits exactly one kTimeEnd message whose body is the
single string `L ++ ": " ++ fmt (t1 - t0) ++ " ms"` (`fmt` being the
native `std::to_string(double)` rendering the code applies), restores the
timer table (removing L), and a second timeEnd then emits the
"Timer does not exist" warning. -/
theorem C3_time_timeEnd (toStr : JSValue → String) (fmt : ℚ → String)
    (L : String) (args : List JSValue) (t0 t1 t2 : ℚ) (st : ConsoleState)
    (hL : resolveLabel toStr args = L)
    (h0 : lookupAssoc st.timerTable L = none) :
    (timeBody toStr args st t0).2 = [] ∧
    (timeEndBody toStr fmt args (timeBody toStr args st t0).1 t1).2
      = [⟨t1, ConsoleAPIType.kTimeEnd,
          [JSValue.str (L ++ ": " ++ fmt (t1 - t0) ++ " ms")]⟩] ∧
    (timeEndBody toStr fmt args (timeBody toStr args st t0).1 t1).1.timerTable
      = st.timerTable ∧
    lookupAssoc
      (timeEndBody toStr fmt args (timeBody toStr args st t0).1 t1).1.timerTable
      L = none ∧
    (timeEndBody toStr fmt args
        (timeEndBody toStr fmt args (timeBody toStr args st t0).1 t1).1 t2).2
      = [⟨t2, ConsoleAPIType.kWarning,
          [JSValue.str ("Timer '" ++ L ++ "' does not exist")]⟩] := by
  have hstart : timeBody toStr args st t0
      = ({ st with timerTable := st.timerTable ++ [(L, t0)] }, []) := by
    simp [timeBody, hL, h0]
  have h1 : lookupAssoc (st.timerTable ++ [(L, t0)]) L = some t0 := by
    rw [lookupAssoc_append_of_none _ h0]
    simp [lookupAssoc]
  have herase : eraseAssoc (st.timerTable ++ [(L, t0)]) L = st.timerTable :=
    eraseAssoc_append_of_none _ h0
  have hend : timeEndBody toStr fmt args
      ({ st with timerTable := st.timerTable ++ [(L, t0)] }) t1
      = ({ st with timerTable := st.timerTable },
         [⟨t1, ConsoleAPIType.kTimeEnd,
           [JSValue.str (L ++ ": " ++ fmt (t1 - t0) ++ " ms")]⟩]) := by
    simp [timeEndBody, hL, h1, herase]
  refine ⟨by rw [hstart], ?_, ?_, ?_, ?_⟩
  · rw [hstart, hend]
  · rw [hstart, hend]
  · rw [hstart, hend]
    exact h0
  · rw [hstart, hend]
    simp [timeEndBody, hL, h0]

/-- C3 witness: time("a") at 2 then timeEnd("a") at 5 emits
"a: <fmt 3> ms" of kind kTimeEnd, the table is emptied, and a second
timeEnd warns. -/
theorem C3_time_timeEnd_witness :
    (timeEndBody (fun v => match v with | JSValue.str s => s | _ => "")
        (fun q => toString q) [JSValue.str "a"]
        (timeBody (fun v => match v with | JSValue.str s => s | _ => "")
          [JSValue.str "a"] ⟨[], []⟩ 2).1 5).2
      = [⟨5, ConsoleAPIType.kTimeEnd, [JSValue.str ("a: " ++ toString (3 : ℚ) ++ " ms")]⟩] := by
  have h := (C3_time_timeEnd
      (fun v => match v with | JSValue.str s => s | _ => "")
      (fun q => toString q) "a" [JSValue.str "a"] 2 5 7 ⟨[], []⟩ rfl rfl).2.1
  rw [h]
  norm_num
  rfl

/-- C4: countReset with a label that has no count entry emits exactly one
kWarning message "Count for '<L>' does not exist" and leaves the count
map without an entry for L (it never creates one); countReset with an
existing entry zeroes it and emits no message. -/
theorem C4_countReset (toStr : JSValue → String) (args : List JSValue)
    (st : ConsoleState) (ts : ℚ) (L : String)
    (hL : resolveLabel toStr args = L) :
    (lookupAssoc st.countMap L = none →
       countResetBody toStr args st ts
         = (st, [⟨ts, ConsoleAPIType.kWarning,
             [JSValue.str ("Count for '" ++ L ++ "' does not exist")]⟩]) ∧
       lookupAssoc (countResetBody toStr args st ts).1.countMap L = none) ∧
    (∀ n, lookupAssoc st.countMap L = some n →
       countResetBody toStr args st ts
         = ({ st with countMap := setAssoc st.countMap L 0 }, []) ∧
       lookupAssoc (countResetBody toStr args st ts).1.countMap L = some 0) := by
  constructor
  · intro h
    have hres : countResetBody toStr args st ts
        = (st, [⟨ts, ConsoleAPIType.kWarning,
            [JSValue.str ("Count for '" ++ L ++ "' does not exist")]⟩]) := by
      simp [countResetBody, hL, h]
    exact ⟨hres, by rw [hres]; exact h⟩
  · intro n h
    have hres : countResetBody toStr args st ts
        = ({ st with countMap := setAssoc st.countMap L 0 }, []) := by
      simp [countResetBody, hL, h]
    exact ⟨hres, by rw [hres]; exact lookupAssoc_setAssoc_self 0 h⟩

/-- C4 witness: countReset("x") on the fresh state warns and creates no
entry. -/
theorem C4_countReset_witness :
    countResetBody (fun v => match v with | JSValue.str s => s | _ => "")
        [JSValue.str "x"] ⟨[], []⟩ 3
      = (⟨[], []⟩,
         [⟨3, ConsoleAPIType.kWarning,
           [JSValue.str "Count for 'x' does not exist"]⟩]) := by
  have h := ((C4_countReset
      (fun v => match v with | JSValue.str s => s | _ => "")
      [JSValue.str "x"] ⟨[], []⟩ 3 "x" rfl).1 rfl).1
  rw [h]
  rfl

theorem lookupAssoc_eraseAssoc_of_none {α : Type} {m : List (String × α)}
    {key : String} (k : String) (h : lookupAssoc m key = none) :
    lookupAssoc (eraseAssoc m k) key = none := by
  induction m with
  | nil => simp [eraseAssoc, lookupAssoc]
  | cons p rest ih =>
    obtain ⟨k1, v⟩ := p
    by_cases hk1 : k1 = key
    · simp [lookupAssoc, hk1] at h
    · simp only [lookupAssoc, if_neg hk1] at h
      by_cases hk2 : k1 = k
      · simp only [eraseAssoc, if_pos hk2]
        exact h
      · simp only [eraseAssoc, if_neg hk2, lookupAssoc, if_neg hk1]
        exact ih h

theorem methodBody_countReset (toStr : JSValue → String) (fmt : ℚ → String) :
    methodBody toStr fmt "countReset" = some (countResetBody toStr) := rfl

theorem methodBody_time (toStr : JSValue → String) (fmt : ℚ → String) :
    methodBody toStr fmt "time" = some (timeBody toStr) := rfl

theorem methodBody_timeEnd (toStr : JSValue → String) (fmt : ℚ → String) :
    methodBody toStr fmt "timeEnd" = some (timeEndBody toStr fmt) := rfl

theorem methodBody_timeLog (toStr : JSValue → String) (fmt : ℚ → String) :
    methodBody toStr fmt "timeLog" = some (timeLogBody toStr fmt) := rfl

theorem methodBody_assert (toStr : JSValue → String) (fmt : ℚ → String) :
    methodBody toStr fmt "assert" = some assertBody := rfl

theorem stepMethod_timerTable_other (toStr : JSValue → String)
    (fmt : ℚ → String) (name : String) (args : List JSValue)
    (st : ConsoleState) (ts : ℚ)
    (h1 : name ≠ "time") (h2 : name ≠ "timeEnd") :
    (stepMethod toStr fmt name args st ts).1.timerTable = st.timerTable := by
  by_cases hc : name = "count"
  · subst hc
    simp only [stepMethod, methodBody_count]
    cases hl : lookupAssoc st.countMap (resolveLabel toStr args) <;>
      simp [countBody, hl]
  by_cases hcr : name = "countReset"
  · subst hcr
    simp only [stepMethod, methodBody_countReset]
    cases hl : lookupAssoc st.countMap (resolveLabel toStr args) <;>
      simp [countResetBody, hl]
  by_cases hlog : name = "timeLog"
  · subst hlog
    simp only [stepMethod, methodBody_timeLog]
    cases hl : lookupAssoc st.timerTable (resolveLabel toStr args) <;>
      simp [timeLogBody, hl]
  by_cases ha : name = "assert"
  · subst ha
    simp only [stepMethod, methodBody_assert]
    cases args with
    | nil => simp [assertBody]
    | cons a rest => by_cases hb : toBoolean a <;> simp [assertBody, hb]
  have hmb : methodBody toStr fmt name
      = (lookupAssoc kForwardingConsoleMethods name).map passthroughBody := by
    simp [methodBody, hc, hcr, h1, h2, hlog, ha]
  simp only [stepMethod, hmb]
  cases hk : lookupAssoc kForwardingConsoleMethods name
  · simp
  · simp [passthroughBody]

/-- C5: timer-table invariants of every installed method call. Entries are
created only by time (and only at the call's resolved label); time on an
existing label emits the "already exists" warning and leaves the whole
state, including the stored start timestamp, untouched; an existing entry
disappears only through timeEnd; timeEnd reads the entry (reporting
elapsed from it) and then removes it; timeLog reads without removing, and
two successive timeLog calls both report elapsed time from the same
original start. -/
theorem C5_timerTable_invariants (toStr : JSValue → String)
    (fmt : ℚ → String) (name : String) (args : List JSValue)
    (st : ConsoleState) (ts : ℚ) :
    (∀ L, lookupAssoc st.timerTable L = none →
       lookupAssoc (stepMethod toStr fmt name args st ts).1.timerTable L ≠ none →
       name = "time" ∧ resolveLabel toStr args = L) ∧
    (∀ t0, name = "time" →
       lookupAssoc st.timerTable (resolveLabel toStr args) = some t0 →
       stepMethod toStr fmt name args st ts
         = (st, [⟨ts, ConsoleAPIType.kWarning,
             [JSValue.str
               ("Timer '" ++ resolveLabel toStr args ++ "' already exists")]⟩])) ∧
    (∀ L w, lookupAssoc st.timerTable L = some w →
       lookupAssoc (stepMethod toStr fmt name args st ts).1.timerTable L = none →
       name = "timeEnd") ∧
    (∀ t0, name = "timeEnd" →
       lookupAssoc st.timerTable (resolveLabel toStr args) = some t0 →
       stepMethod toStr fmt name args st ts
         = ({ st with
               timerTable := eraseAssoc st.timerTable (resolveLabel toStr args) },
            [⟨ts, ConsoleAPIType.kTimeEnd,
              [JSValue.str
                (resolveLabel toStr args ++ ": " ++ fmt (ts - t0) ++ " ms")]⟩])) ∧
    (∀ t0, name = "timeLog" →
       lookupAssoc st.timerTable (resolveLabel toStr args) = some t0 →
       stepMethod toStr fmt name args st ts
         = (st, [⟨ts, ConsoleAPIType.kLog,
             JSValue.str
               (resolveLabel toStr args ++ ": " ++ fmt (ts - t0) ++ " ms")
               :: args.drop 1⟩])) ∧
    (∀ t0 ts2, name = "timeLog" →
       lookupAssoc st.timerTable (resolveLabel toStr args) = some t0 →
       (stepMethod toStr fmt name args
           (stepMethod toStr fmt name args st ts).1 ts2).2
         = [⟨ts2, ConsoleAPIType.kLog,
             JSValue.str
               (resolveLabel toStr args ++ ": " ++ fmt (ts2 - t0) ++ " ms")
               :: args.drop 1⟩]) := by
  have hlogStep : ∀ (st2 : ConsoleState) (t t0 : ℚ),
      lookupAssoc st2.timerTable (resolveLabel toStr args) = some t0 →
      stepMethod toStr fmt "timeLog" args st2 t
        = (st2, [⟨t, ConsoleAPIType.kLog,
            JSValue.str
              (resolveLabel toStr args ++ ": " ++ fmt (t - t0) ++ " ms")
              :: args.drop 1⟩]) := by
    intro st2 t t0 h
    simp only [stepMethod, methodBody_timeLog]
    simp [timeLogBody, h]
  refine ⟨?_, ?_, ?_, ?_, ?_, ?_⟩
  · intro L h0 h1
    by_cases ht : name = "time"
    · subst ht
      refine ⟨rfl, ?_⟩
      simp only [stepMethod, methodBody_time] at h1
      cases hl : lookupAssoc st.timerTable (resolveLabel toStr args) with
      | none =>
        simp only [timeBody, hl] at h1
        rw [lookupAssoc_append_of_none _ h0] at h1
        by_cases hlab : resolveLabel toStr args = L
        · exact hlab
        · simp [lookupAssoc, hlab] at h1
      | some w =>
        simp only [timeBody, hl] at h1
        exact absurd h0 h1
    · by_cases hte : name = "timeEnd"
      · subst hte
        exfalso
        simp only [stepMethod, methodBody_timeEnd] at h1
        cases hl : lookupAssoc st.timerTable (resolveLabel toStr args) with
        | none =>
          simp only [timeEndBody, hl] at h1
          exact absurd h0 h1
        | some w =>
          simp only [timeEndBody, hl] at h1
          exact h1 (lookupAssoc_eraseAssoc_of_none _ h0)
      · rw [stepMethod_timerTable_other toStr fmt name args st ts ht hte] at h1
        exact absurd h0 h1
  · intro t0 hname h
    subst hname
    simp only [stepMethod, methodBody_time]
    simp [timeBody, h]
  · intro L w hs hn
    by_cases hte : name = "timeEnd"
    · exact hte
    exfalso
    by_cases ht : name = "time"
    · subst ht
      simp only [stepMethod, methodBody_time] at hn
      cases hl : lookupAssoc st.timerTable (resolveLabel toStr args) with
      | none =>
        simp only [timeBody, hl] at hn
        rw [lookupAssoc_append_of_some _ hs] at hn
        exact Option.noConfusion hn
      | some w2 =>
        simp only [timeBody, hl] at hn
        rw [hs] at hn
        exact Option.noConfusion hn
    · rw [stepMethod_timerTable_other toStr fmt name args st ts ht hte] at hn
      rw [hs] at hn
      exact Option.noConfusion hn
  · intro t0 hname h
    subst hname
    simp only [stepMethod, methodBody_timeEnd]
    simp [timeEndBody, h]
  · intro t0 hname h
    subst hname
    exact hlogStep st ts t0 h
  · intro t0 ts2 hname h
    subst hname
    rw [hlogStep st ts t0 h]
    rw [hlogStep st ts2 t0 h]

/-- C5 witness: with a timer "a" started at 1, two timeLog calls at 4 and
at 6 both report elapsed time from the original start 1. -/
theorem C5_timerTable_invariants_witness :
    (stepMethod (fun v => match v with | JSValue.str s => s | _ => "")
        (fun q => toString q) "timeLog" [JSValue.str "a"]
        (stepMethod (fun v => match v with | JSValue.str s => s | _ => "")
          (fun q => toString q) "timeLog" [JSValue.str "a"]
          ⟨[], [("a", 1)]⟩ 4).1 6).2
      = [⟨6, ConsoleAPIType.kLog,
          [JSValue.str ("a: " ++ toString (5 : ℚ) ++ " ms")]⟩] := by
  have h := (C5_timerTable_invariants
      (fun v => match v with | JSValue.str s => s | _ => "")
      (fun q => toString q) "timeLog" [JSValue.str "a"]
      ⟨[], [("a", 1)]⟩ 4).2.2.2.2.2 1 6 rfl rfl
  rw [h]
  norm_num
  rfl

/-- C6 counterexample: warn is one of the thirteen passthrough methods
and its fixed mapping is the Warning kind, so the installed warn method
emits a Warning-kind message on every call — falsifying the claim's
"never emits a Warning-kind message" for passthrough calls. -/
theorem C6_passthrough_counterexample :
    ("warn", ConsoleAPIType.kWarning) ∈ kForwardingConsoleMethods ∧
    (methodBody (fun _ => "") (fun _ => "") "warn").map
        (fun b => (b [JSValue.str "x"] ⟨[], []⟩ 0).2.map ConsoleMessage.type)
      = some [ConsoleAPIType.kWarning] ∧
    ¬ (∀ m ∈ (passthroughBody ConsoleAPIType.kWarning
          [JSValue.str "x"] ⟨[], []⟩ 0).2,
         m.type ≠ ConsoleAPIType.kWarning) := by
  refine ⟨by decide, rfl, ?_⟩
  intro hall
  exact hall ⟨0, ConsoleAPIType.kWarning, [JSValue.str "x"]⟩
    (by simp [passthroughBody]) rfl

/-- C6 (amended): every call to one of the thirteen passthrough methods
emits exactly one message whose argument sequence equals the call
arguments exactly and in order, whose kind is the method's fixed mapping
in kForwardingConsoleMethods, and leaves ConsoleState unchanged; the
emitted message is never of Warning kind except when the method is warn,
whose fixed mapping is itself the Warning kind. -/
theorem C6_passthrough_methods (toStr : JSValue → String) (fmt : ℚ → String)
    (name : String) (type : ConsoleAPIType)
    (hmem : (name, type) ∈ kForwardingConsoleMethods)
    (args : List JSValue) (st : ConsoleState) (ts : ℚ) :
    methodBody toStr fmt name = some (passthroughBody type) ∧
    passthroughBody type args st ts = (st, [⟨ts, type, args⟩]) ∧
    (∀ m ∈ (passthroughBody type args st ts).2,
       m.type = ConsoleAPIType.kWarning → name = "warn") := by
  refine ⟨?_, rfl, ?_⟩
  · fin_cases hmem <;> rfl
  · intro m hm htype
    fin_cases hmem <;> simp_all [passthroughBody]

/-- C6 witness: log("a", 1) emits exactly one kLog message with the call
arguments verbatim and leaves the state unchanged. -/
theorem C6_passthrough_methods_witness :
    passthroughBody ConsoleAPIType.kLog
        [JSValue.str "a", JSValue.num 1] ⟨[], []⟩ 2
      = (⟨[], []⟩,
         [⟨2, ConsoleAPIType.kLog, [JSValue.str "a", JSValue.num 1]⟩]) :=
  (C6_passthrough_methods (fun _ => "") (fun _ => "") "log"
    ConsoleAPIType.kLog (by decide)
    [JSValue.str "a", JSValue.num 1] ⟨[], []⟩ 2).2.1

/-- C7 counterexample: with a live session and a captured original console
whose "log" property is a callable that throws, the intercepted call
raises that error to its caller instead of completing — falsifying the
claim that no error arising from the forwarding step ever propagates back
as a failure of the intercepted call. -/
theorem C7_forwarding_counterexample :
    (interceptedConsoleCall true
        (some (fun _ => PropLookup.callable (fun _ => Except.error ⟨"boom"⟩)))
        "log" (passthroughBody ConsoleAPIType.kLog)
        [JSValue.str "a"] ⟨[], []⟩ 0).result
      = Except.error ⟨"boom"⟩ ∧
    (interceptedConsoleCall true
        (some (fun _ => PropLookup.callable (fun _ => Except.error ⟨"boom"⟩)))
        "log" (passthroughBody ConsoleAPIType.kLog)
        [JSValue.str "a"] ⟨[], []⟩ 0).result
      ≠ Except.ok JSValue.undefined := by
  refine ⟨rfl, ?_⟩
  intro h
  exact Except.noConfusion h

/-- C7 (amended): for every installed method and every call, the inner
(bridge-guarded) body runs first and its state, messages and bridge
events are unaffected by forwarding; afterward, if an original console
was captured and its same-named property is a callable object, that
callable is invoked with the original, unmodified argument list (with the
original console as receiver) and its return value is ignored; if the
property is missing or not a callable object, forwarding is skipped
without error; an exception thrown by the invoked original method itself
propagates back to the caller of the intercepted call. -/
theorem C7_forwardToOriginalConsole (alive : Bool)
    (orig : Option (String → PropLookup)) (name : String)
    (body : ConsoleBody) (args : List JSValue) (st : ConsoleState) (ts : ℚ) :
    (interceptedConsoleCall alive orig name body args st ts).state
      = (consoleInnerFn alive body args st ts).state ∧
    (interceptedConsoleCall alive orig name body args st ts).messages
      = (consoleInnerFn alive body args st ts).messages ∧
    (orig = none →
       (interceptedConsoleCall alive orig name body args st ts).forwarded = none ∧
       (interceptedConsoleCall alive orig name body args st ts).result
         = Except.ok JSValue.undefined) ∧
    (∀ props, orig = some props →
       (∀ f, props name = PropLookup.callable f →
          (interceptedConsoleCall alive orig name body args st ts).forwarded
            = some args ∧
          (interceptedConsoleCall alive orig name body args st ts).events
            = (consoleInnerFn alive body args st ts).events
                ++ [BridgeEvent.forwardCall args] ∧
          (∀ v, f args = Except.ok v →
             (interceptedConsoleCall alive orig name body args st ts).result
               = Except.ok JSValue.undefined) ∧
          (∀ e, f args = Except.error e →
             (interceptedConsoleCall alive orig name body args st ts).result
               = Except.error e)) ∧
       (¬ (props name).isCallable →
          (interceptedConsoleCall alive orig name body args st ts).forwarded
            = none ∧
          (interceptedConsoleCall alive orig name body args st ts).result
            = Except.ok JSValue.undefined)) := by
  have hret : (consoleInnerFn alive body args st ts).retVal
      = JSValue.undefined := by
    cases alive <;> rfl
  cases orig with
  | none =>
    refine ⟨rfl, rfl, fun _ => ⟨rfl, ?_⟩, fun props hp => Option.noConfusion hp⟩
    simp only [interceptedConsoleCall]
    rw [hret]
  | some props =>
    cases hp : props name with
    | callable f =>
      refine ⟨?_, ?_, fun hnone => Option.noConfusion hnone, ?_⟩
      · simp [interceptedConsoleCall, hp]
      · simp [interceptedConsoleCall, hp]
      · intro props2 hp2
        injection hp2 with hpe
        subst hpe
        constructor
        · intro f2 hf2
          rw [hp] at hf2
          injection hf2 with hff
          subst hff
          refine ⟨?_, ?_, ?_, ?_⟩
          · simp [interceptedConsoleCall, hp]
          · simp [interceptedConsoleCall, hp]
          · intro v hv
            simp only [interceptedConsoleCall, hp]
            rw [hv, hret]
          · intro e he
            simp only [interceptedConsoleCall, hp]
            rw [he]
        · intro hnc
          exact absurd ⟨f, hp⟩ hnc
    | value v =>
      refine ⟨?_, ?_, fun hnone => Option.noConfusion hnone, ?_⟩
      · simp [interceptedConsoleCall, hp]
      · simp [interceptedConsoleCall, hp]
      · intro props2 hp2
        injection hp2 with hpe
        subst hpe
        constructor
        · intro f2 hf2
          rw [hp] at hf2
          exact PropLookup.noConfusion hf2
        · intro _
          constructor
          · simp [interceptedConsoleCall, hp]
          · simp only [interceptedConsoleCall, hp]
            rw [hret]
    | plainObject =>
      refine ⟨?_, ?_, fun hnone => Option.noConfusion hnone, ?_⟩
      · simp [interceptedConsoleCall, hp]
      · simp [interceptedConsoleCall, hp]
      · intro props2 hp2
        injection hp2 with hpe
        subst hpe
        constructor
        · intro f2 hf2
          rw [hp] at hf2
          exact PropLookup.noConfusion hf2
        · intro _
          constructor
          · simp [interceptedConsoleCall, hp]
          · simp only [interceptedConsoleCall, hp]
            rw [hret]

/-- C7 witness: with a live session and an original console whose "log"
property is a callable returning 7, the intercepted call forwards the
original arguments and returns undefined, ignoring the 7. -/
theorem C7_forwardToOriginalConsole_witness :
    (interceptedConsoleCall true
        (some (fun _ => PropLookup.callable
          (fun _ => Except.ok (JSValue.num 7))))
        "log" (passthroughBody ConsoleAPIType.kLog)
        [JSValue.str "a"] ⟨[], []⟩ 0).forwarded
      = some [JSValue.str "a"] ∧
    (interceptedConsoleCall true
        (some (fun _ => PropLookup.callable
          (fun _ => Except.ok (JSValue.num 7))))
        "log" (passthroughBody ConsoleAPIType.kLog)
        [JSValue.str "a"] ⟨[], []⟩ 0).result
      = Except.ok JSValue.undefined := by
  have h := ((C7_forwardToOriginalConsole true
      (some (fun _ => PropLookup.callable
        (fun _ => Except.ok (JSValue.num 7))))
      "log" (passthroughBody ConsoleAPIType.kLog)
      [JSValue.str "a"] ⟨[], []⟩ 0).2.2.2
      (fun _ => PropLookup.callable (fun _ => Except.ok (JSValue.num 7)))
      rfl).1
      (fun _ => Except.ok (JSValue.num 7)) rfl
  exact ⟨h.1, h.2.2.1 (JSValue.num 7) rfl⟩

/-- C9: for every intercepted call with a successful weak-to-strong
upgrade, the strong reference is disposed of by moving it into a
fire-and-forget task submitted to the owner executor — never by a release
on the script-execution thread — and in the call's event trace that
handoff happens after the inline delegate access and after every message
sunk during it (and before the forwarding step). -/
theorem C9_strongRef_handoff (orig : Option (String → PropLookup))
    (name : String) (body : ConsoleBody) (args : List JSValue)
    (st : ConsoleState) (ts : ℚ) :
    (interceptedConsoleCall true orig name body args st ts).strongRefDisposal
      = some RefDisposal.ownerExecutorTask ∧
    (interceptedConsoleCall true orig name body args st ts).strongRefDisposal
      ≠ some RefDisposal.scriptThread ∧
    (interceptedConsoleCall true orig name body args st ts).events
      = (BridgeEvent.delegateAccess
          :: ((body args st ts).2.map BridgeEvent.message
              ++ [BridgeEvent.ownerHandoff]))
          ++ forwardTrace orig name args := by
  have h1 : (interceptedConsoleCall true orig name body args st ts).strongRefDisposal
      = some RefDisposal.ownerExecutorTask := by
    cases orig with
    | none => rfl
    | some props =>
      cases hp : props name <;>
        simp [interceptedConsoleCall, consoleInnerFn, hp]
  refine ⟨h1, ?_, ?_⟩
  · rw [h1]
    intro h
    exact RefDisposal.noConfusion (Option.some.inj h)
  · cases orig with
    | none => simp [interceptedConsoleCall, consoleInnerFn, forwardTrace]
    | some props =>
      cases hp : props name <;>
        simp [interceptedConsoleCall, consoleInnerFn, forwardTrace, hp]

/-- C10 counterexample: when the captured original console's "warn"
property is a callable that throws, the intercepted call does not return
the undefined value — it raises the error — falsifying the claim that
every installed method returns undefined on every invocation. -/
theorem C10_returns_undefined_counterexample :
    (interceptedConsoleCall true
        (some (fun _ => PropLookup.callable (fun _ => Except.error ⟨"err"⟩)))
        "warn" (passthroughBody ConsoleAPIType.kWarning)
        [JSValue.num 2] ⟨[], []⟩ 0).result
      = Except.error ⟨"err"⟩ ∧
    (interceptedConsoleCall true
        (some (fun _ => PropLookup.callable (fun _ => Except.error ⟨"err"⟩)))
        "warn" (passthroughBody ConsoleAPIType.kWarning)
        [JSValue.num 2] ⟨[], []⟩ 0).result
      ≠ Except.ok JSValue.undefined := by
  refine ⟨rfl, ?_⟩
  intro h
  exact Except.noConfusion h

/-- C10 (amended): whenever an intercepted call returns a value at all —
on every invocation that does not propagate an exception — that value is
undefined, regardless of the call's arguments, of whether a message was
emitted, and of what value the original console's same-named method
returned (it is discarded). -/
theorem C10_returns_undefined (alive : Bool)
    (orig : Option (String → PropLookup)) (name : String)
    (body : ConsoleBody) (args : List JSValue) (st : ConsoleState) (ts : ℚ)
    (v : JSValue)
    (h : (interceptedConsoleCall alive orig name body args st ts).result
        = Except.ok v) :
    v = JSValue.undefined ∧
    (interceptedConsoleCall alive orig name body args st ts).result
      = Except.ok JSValue.undefined := by
  have hret : (consoleInnerFn alive body args st ts).retVal
      = JSValue.undefined := by
    cases alive <;> rfl
  have hv : v = JSValue.undefined := by
    cases orig with
    | none =>
      simp only [interceptedConsoleCall] at h
      exact (Except.ok.inj h) ▸ hret
    | some props =>
      cases hp : props name with
      | callable f =>
        cases hf : f args with
        | ok w =>
          simp only [interceptedConsoleCall, hp, hf] at h
          exact (Except.ok.inj h) ▸ hret
        | error e =>
          simp only [interceptedConsoleCall, hp, hf] at h
          exact Except.noConfusion h
      | value w =>
        simp only [interceptedConsoleCall, hp] at h
        exact (Except.ok.inj h) ▸ hret
      | plainObject =>
        simp only [interceptedConsoleCall, hp] at h
        exact (Except.ok.inj h) ▸ hret
  exact ⟨hv, hv ▸ h⟩

/-- C10 witness: a live-session log call with no original console returns
undefined. -/
theorem C10_returns_undefined_witness :
    (interceptedConsoleCall true none "log"
        (passthroughBody ConsoleAPIType.kLog)
        [JSValue.num 3] ⟨[], []⟩ 0).result
      = Except.ok JSValue.undefined :=
  (C10_returns_undefined true none "log"
    (passthroughBody ConsoleAPIType.kLog)
    [JSValue.num 3] ⟨[], []⟩ 0 JSValue.undefined rfl).2

end RuntimeTargetConsole
